import Mathlib

/-!
A shallow embedding of the accreditrack backend's frequency-based compliance
engine and its neighbours, translated from the Python sources:

* `backend/api/scheduling_service.py` — `calculate_next_due_date`,
  `get_period_dates` (calendar arithmetic via `datetime.date`,
  `timedelta` and `dateutil.relativedelta`);
* `backend/api/compliance_service.py` — `_get_expected_periods`,
  `_get_actual_evidence_periods`, `_find_missing_periods`,
  `calculate_compliance_status`, `recalculate_indicator_compliance`;
* `backend/assignments/views.py` — `ItemStatusViewSet.partial_update` and
  `mark_in_progress` (the workflow state machine);
* `backend/evidence/views.py` — the auto-advance side effect of
  `EvidenceViewSet.create`;
* `backend/api/models.py` / `backend/api/csv_import_service.py` — the
  SHA-256 indicator identity key and the CSV import upsert loop.

Dates are embedded as year/month/day triples of naturals; Python `date`
objects always satisfy `1 ≤ month ≤ 12` and `1 ≤ day ≤ 31`, captured by
`ValidYmd` where a proof needs it.  Machine-level 32-bit arithmetic inside
SHA-256 is `Nat` arithmetic reduced `% 2^32`.
-/

/-- A calendar date, the embedding of Python's `datetime.date`. -/
structure Ymd where
  year : Nat
  month : Nat
  day : Nat
deriving DecidableEq, Repr

/-- Chronological strict order on dates: Python's `date.__lt__`
(lexicographic on (year, month, day)). -/
def ymdLt (a b : Ymd) : Bool :=
  decide (a.year < b.year ∨ (a.year = b.year ∧
    (a.month < b.month ∨ (a.month = b.month ∧ a.day < b.day))))

/-- Chronological non-strict order on dates: Python's `date.__le__`. -/
def ymdLe (a b : Ymd) : Bool :=
  decide (a.year < b.year ∨ (a.year = b.year ∧
    (a.month < b.month ∨ (a.month = b.month ∧ a.day ≤ b.day))))

/-- Gregorian leap-year rule, as Python's `calendar.isleap`. -/
def isLeap (y : Nat) : Bool :=
  y % 4 == 0 && (y % 100 != 0 || y % 400 == 0)

/-- Number of days in a month of a given year. -/
def daysInMonth (y m : Nat) : Nat :=
  if m = 2 then (if isLeap y then 29 else 28)
  else if m = 4 ∨ m = 6 ∨ m = 9 ∨ m = 11 then 30
  else 31

/-- The invariant every Python `date` satisfies (weakly: day bounded by 31,
not by the month's length; this is all the proofs need). -/
def ValidYmd (d : Ymd) : Prop :=
  1 ≤ d.month ∧ d.month ≤ 12 ∧ 1 ≤ d.day ∧ d.day ≤ 31

instance (d : Ymd) : Decidable (ValidYmd d) := by
  unfold ValidYmd
  infer_instance

/-- The successor date: `date + timedelta(days=1)`. -/
def addOneDay (d : Ymd) : Ymd :=
  if d.day < daysInMonth d.year d.month then ⟨d.year, d.month, d.day + 1⟩
  else if d.month < 12 then ⟨d.year, d.month + 1, 1⟩
  else ⟨d.year + 1, 1, 1⟩

/-- `date + timedelta(days=n)`. -/
def addDays : Nat → Ymd → Ymd
  | 0, d => d
  | n + 1, d => addDays n (addOneDay d)

/-- The predecessor date: `date - timedelta(days=1)`. -/
def subOneDay (d : Ymd) : Ymd :=
  if 1 < d.day then ⟨d.year, d.month, d.day - 1⟩
  else if 1 < d.month then ⟨d.year, d.month - 1, daysInMonth d.year (d.month - 1)⟩
  else ⟨d.year - 1, 12, 31⟩

/-- `date - timedelta(days=n)`. -/
def subDays : Nat → Ymd → Ymd
  | 0, d => d
  | n + 1, d => subDays n (subOneDay d)

/-- `date + relativedelta(months=n)`: calendar-month arithmetic with the
day-of-month clamped to the target month's length (dateutil semantics). -/
def addMonthsClamp (n : Nat) (d : Ymd) : Ymd :=
  let t := d.year * 12 + (d.month - 1) + n
  let y := t / 12
  let m := t % 12 + 1
  ⟨y, m, min d.day (daysInMonth y m)⟩

/-- `date + relativedelta(years=n)`: the year advances and the day is
clamped to the target month's length (Feb 29 + 1 year = Feb 28). -/
def addYearsClamp (n : Nat) (d : Ymd) : Ymd :=
  ⟨d.year + n, d.month, min d.day (daysInMonth (d.year + n) d.month)⟩

/-- Day count of a date (days since 0000-03-01 in the proleptic Gregorian
calendar); only its residue mod 7 is used, for `date.weekday()`. -/
def rataDie (dt : Ymd) : Nat :=
  let y := if dt.month ≤ 2 then dt.year - 1 else dt.year
  let era := y / 400
  let yoe := y % 400
  let mp := if dt.month ≤ 2 then dt.month + 9 else dt.month - 3
  let doy := (153 * mp + 2) / 5 + dt.day - 1
  let doe := yoe * 365 + yoe / 4 - yoe / 100 + doy
  era * 146097 + doe

/-- Python's `date.weekday()`: Monday = 0 … Sunday = 6. -/
def pyWeekday (d : Ymd) : Nat :=
  (rataDie d + 2) % 7

/-- A measure that is strictly monotone along the chronological order on
valid dates; it bounds how many loop iterations remain. -/
def mYmd (d : Ymd) : Nat :=
  372 * d.year + 31 * d.month + d.day

/-- Python `str.lower()` (ASCII-faithful). -/
def pyLower (s : String) : String :=
  String.mk (s.data.map Char.toLower)

/-- Python `str.strip()`: whitespace removed from both ends. -/
def pyStrip (s : String) : String :=
  String.mk (((s.data.dropWhile Char.isWhitespace).reverse.dropWhile
    Char.isWhitespace).reverse)

/-- The `freq_lower = normalized_frequency.lower().strip()` preamble shared
by the scheduling helpers. -/
def freqLower (s : String) : String :=
  pyStrip (pyLower s)

/-- `scheduling_service.calculate_next_due_date`: the next due date for a
normalized frequency, `none` when the frequency is empty or unrecognized. -/
def calculate_next_due_date (normalized_frequency : String) (reference_date : Ymd) :
    Option Ymd :=
  if normalized_frequency == "" then none
  else
    let fl := freqLower normalized_frequency
    if fl == "daily" || fl == "day" then some (addDays 1 reference_date)
    else if fl == "weekly" || fl == "week" then some (addDays 7 reference_date)
    else if fl == "bi-weekly" || fl == "biweekly" || fl == "fortnightly" then
      some (addDays 14 reference_date)
    else if fl == "monthly" || fl == "month" then some (addMonthsClamp 1 reference_date)
    else if fl == "quarterly" || fl == "quarter" then some (addMonthsClamp 3 reference_date)
    else if fl == "semi-annually" || fl == "semiannually" || fl == "semi-annual" ||
        fl == "semiannual" then some (addMonthsClamp 6 reference_date)
    else if fl == "annual" || fl == "annually" || fl == "yearly" || fl == "year" then
      some (addYearsClamp 1 reference_date)
    else none

/-- `scheduling_service.get_period_dates`: the (start, end) period containing
the reference date for a frequency; the unrecognized default is a single day. -/
def get_period_dates (normalized_frequency : String) (reference_date : Ymd) :
    Ymd × Ymd :=
  let fl := freqLower normalized_frequency
  if fl == "daily" || fl == "day" then (reference_date, reference_date)
  else if fl == "weekly" || fl == "week" then
    let start := subDays (pyWeekday reference_date) reference_date
    (start, addDays 6 start)
  else if fl == "bi-weekly" || fl == "biweekly" || fl == "fortnightly" then
    let start := subDays (pyWeekday reference_date) reference_date
    (start, addDays 13 start)
  else if fl == "monthly" || fl == "month" then
    let start : Ymd := ⟨reference_date.year, reference_date.month, 1⟩
    let last :=
      if start.month == 12 then subOneDay ⟨start.year + 1, 1, 1⟩
      else subOneDay ⟨start.year, start.month + 1, 1⟩
    (start, last)
  else if fl == "quarterly" || fl == "quarter" then
    let q := (reference_date.month - 1) / 3
    let start : Ymd := ⟨reference_date.year, q * 3 + 1, 1⟩
    (start, subOneDay (addMonthsClamp 3 start))
  else if fl == "semi-annually" || fl == "semiannually" || fl == "semi-annual" ||
      fl == "semiannual" then
    if reference_date.month ≤ 6 then
      (⟨reference_date.year, 1, 1⟩, ⟨reference_date.year, 6, 30⟩)
    else
      (⟨reference_date.year, 7, 1⟩, ⟨reference_date.year, 12, 31⟩)
  else if fl == "annual" || fl == "annually" || fl == "yearly" || fl == "year" then
    (⟨reference_date.year, 1, 1⟩, ⟨reference_date.year, 12, 31⟩)
  else (reference_date, reference_date)

/-- An `Evidence` row as the compliance service reads it: the optional
period bounds (`period_start`, `period_end`); other columns play no role in
period coverage. -/
structure Evid where
  period_start : Option Ymd
  period_end : Option Ymd
deriving DecidableEq, Repr

/-- The body of `_get_expected_periods`' `while current_date <= end_date`
loop, observed through an iteration budget: `none` means the budget ran out
with the loop still running.  `expLoop_isSome_of_budget` shows the budget
`mYmd endD + 2` always suffices, so the Python loop terminates. -/
def expLoop (freq : String) (endD : Ymd) :
    Nat → Ymd → List (Ymd × Ymd) → Option (List (Ymd × Ymd))
  | 0, _, _ => none
  | fuel + 1, current, acc =>
    if ymdLe current endD then
      let p := get_period_dates freq current
      let acc' := if acc.getLast? = some p then acc else acc ++ [p]
      match calculate_next_due_date freq p.1 with
      | none => some acc'
      | some next => if ymdLe next current then some acc' else expLoop freq endD fuel next acc'
    else some acc

/-- `compliance_service._get_expected_periods`: all expected evidence
periods from the indicator's creation date to `end_date`. -/
def _get_expected_periods (freq : String) (created endD : Ymd) : List (Ymd × Ymd) :=
  (expLoop freq endD (mYmd endD + 2) created []).getD []

/-- `compliance_service._get_actual_evidence_periods`: the distinct
(period_start, period_end) pairs of the indicator's evidence, rows with both
bounds null excluded by the query and rows with either bound null dropped by
the comprehension's `if start and end`. -/
def _get_actual_evidence_periods (evidence : List Evid) : List (Ymd × Ymd) :=
  (((evidence.filter (fun e => !(e.period_start == none && e.period_end == none))).map
      (fun e => (e.period_start, e.period_end))).dedup).filterMap
    (fun r => match r with
      | (some a, some b) => some (a, b)
      | _ => none)

/-- `compliance_service._find_missing_periods`: the expected periods not
covered by any actual period under the inclusive overlap test
`not (act_end < exp_start or act_start > exp_end)`. -/
def _find_missing_periods (expected actual : List (Ymd × Ymd)) : List (Ymd × Ymd) :=
  expected.filter (fun p => !(actual.any (fun q => !(ymdLt q.2 p.1 || ymdLt p.2 q.1))))

/-- The `Indicator` state the compliance service reads and writes:
`created` is `created_at.date()`, `history` the indicator's
`IndicatorStatusHistory` entries as (old_status, new_status) pairs. -/
structure Indicator where
  schedule_type : String
  normalized_frequency : String
  created : Ymd
  status : String
  history : List (String × String)
  evidence : List Evid
deriving DecidableEq, Repr

/-- The dictionary `calculate_compliance_status` returns (the fields the
claims concern; `last_submitted` and `coverage_percentage` are display-only
and omitted, and `expected_count` is absent — `none` — on the one-time
branch, whose dictionary has no such key). -/
structure ComplianceResult where
  status : String
  evidence_count : Nat
  missing_periods : List (Ymd × Ymd)
  expected_count : Option Nat
  next_due_date : Option Ymd
deriving DecidableEq, Repr

/-- `compliance_service.calculate_compliance_status`, with `today` passed
explicitly in place of `date.today()`. -/
def calculate_compliance_status (indicator : Indicator) (today : Ymd) : ComplianceResult :=
  if indicator.schedule_type ≠ "recurring" ∨ indicator.normalized_frequency = "" then
    { status := if indicator.evidence.length > 0 then "compliant" else "not_compliant"
      evidence_count := indicator.evidence.length
      missing_periods := []
      expected_count := none
      next_due_date := none }
  else
    let expected := _get_expected_periods indicator.normalized_frequency indicator.created today
    let actual := _get_actual_evidence_periods indicator.evidence
    let missing := _find_missing_periods expected actual
    { status :=
        if missing.length = 0 then "compliant"
        else if missing.length < expected.length then "in_process"
        else "not_compliant"
      evidence_count := actual.length
      missing_periods := missing
      expected_count := some expected.length
      next_due_date := calculate_next_due_date indicator.normalized_frequency today }

/-- `compliance_service.recalculate_indicator_compliance`: store the freshly
computed status and append a status-history entry exactly when it differs
from the stored one.  (The call also refreshes the cached `EvidencePeriod`
materialized view, which holds no state the claims concern.) -/
def recalculate_indicator_compliance (indicator : Indicator) (today : Ymd) : Indicator :=
  let new_status := (calculate_compliance_status indicator today).status
  if indicator.status ≠ new_status then
    { indicator with
        status := new_status
        history := indicator.history ++ [(indicator.status, new_status)] }
  else indicator

/-- The `ItemStatus.STATUS_CHOICES` enumeration of `assignments/models.py`. -/
inductive WStatus where
  | notStarted
  | inProgress
  | pendingReview
  | completed
  | verified
  | rejected
deriving DecidableEq, Repr

/-- Outcome of a status-update request: HTTP 403, the two HTTP 400 branches
of `ItemStatusViewSet.partial_update` (invalid coordinator transition;
verify/reject outside `PENDING_REVIEW`), or success with the stored status. -/
inductive UpdateResult where
  | forbidden
  | invalidTransition
  | notPendingReview
  | accepted (newStatus : WStatus)
deriving DecidableEq, Repr

/-- The coordinator `valid_transitions` dictionary of
`ItemStatusViewSet.partial_update`; `none` when the current status is not a
key of the dictionary (`VERIFIED`, `REJECTED`, `COMPLETED`). -/
def coordinatorTargets : WStatus → Option (List WStatus)
  | .notStarted => some [.inProgress]
  | .inProgress => some [.pendingReview, .notStarted]
  | .pendingReview => some [.inProgress]
  | _ => none

/-- `ItemStatusViewSet.partial_update` restricted to a request that carries a
`status` field: permission check, the coordinator transition table (applied
only when the actor is a coordinator and not a QA admin, and only when the
current status is a key of the table), then the QA verify/reject guard. -/
def itemStatusUpdate (is_qa_admin is_coordinator : Bool) (current tgt : WStatus) :
    UpdateResult :=
  if !(is_qa_admin || is_coordinator) then .forbidden
  else
    let coordRejects :=
      is_coordinator && !is_qa_admin &&
        (match coordinatorTargets current with
         | some ts => !(ts.contains tgt)
         | none => false)
    if coordRejects then .invalidTransition
    else if is_qa_admin && (tgt == .verified || tgt == .rejected) &&
        !(current == .pendingReview) then .notPendingReview
    else .accepted tgt

/-- `ItemStatusViewSet.mark_in_progress`: after the permission check the item
is set to `IN_PROGRESS` from any current status, with no transition check. -/
def mark_in_progress (is_qa_admin is_coordinator : Bool) (current : WStatus) :
    UpdateResult :=
  if !(is_coordinator || is_qa_admin) then .forbidden
  else .accepted .inProgress

/-- The auto-advance side effect of `EvidenceViewSet.create` on the item's
status: `NOT_STARTED` becomes `IN_PROGRESS`, anything else is untouched. -/
def evidenceCreateItemStatus (item_status : WStatus) : WStatus :=
  if item_status == .notStarted then .inProgress else item_status

/-- 2^32, the modulus of SHA-256's word arithmetic. -/
def M32 : Nat := 4294967296

/-- Right rotation of a 32-bit word. -/
def rotr32 (n x : Nat) : Nat :=
  ((x >>> n) ||| (x <<< (32 - n))) % M32

/-- SHA-256 big sigma 0. -/
def bigS0 (x : Nat) : Nat :=
  rotr32 2 x ^^^ rotr32 13 x ^^^ rotr32 22 x

/-- SHA-256 big sigma 1. -/
def bigS1 (x : Nat) : Nat :=
  rotr32 6 x ^^^ rotr32 11 x ^^^ rotr32 25 x

/-- SHA-256 small sigma 0. -/
def smallS0 (x : Nat) : Nat :=
  rotr32 7 x ^^^ rotr32 18 x ^^^ (x >>> 3)

/-- SHA-256 small sigma 1. -/
def smallS1 (x : Nat) : Nat :=
  rotr32 17 x ^^^ rotr32 19 x ^^^ (x >>> 10)

/-- SHA-256 choice function (with 32-bit complement as xor against the mask). -/
def chF (x y z : Nat) : Nat :=
  (x &&& y) ^^^ ((x ^^^ 4294967295) &&& z)

/-- SHA-256 majority function. -/
def majF (x y z : Nat) : Nat :=
  (x &&& y) ^^^ (x &&& z) ^^^ (y &&& z)

/-- The eight working variables of a SHA-256 compression state. -/
structure Hash8 where
  a : Nat
  b : Nat
  c : Nat
  d : Nat
  e : Nat
  f : Nat
  g : Nat
  h : Nat
deriving DecidableEq, Repr

/-- The SHA-256 round constants. -/
def sha256K : List Nat :=
  [1116352408, 1899447441, 3049323471, 3921009573, 961987163, 1508970993,
   2453635748, 2870763221, 3624381080, 310598401, 607225278, 1426881987,
   1925078388, 2162078206, 2614888103, 3248222580, 3835390401, 4022224774,
   264347078, 604807628, 770255983, 1249150122, 1555081692, 1996064986,
   2554220882, 2821834349, 2952996808, 3210313671, 3336571891, 3584528711,
   113926993, 338241895, 666307205, 773529912, 1294757372, 1396182291,
   1695183700, 1986661051, 2177026350, 2456956037, 2730485921, 2820302411,
   3259730800, 3345764771, 3516065817, 3600352804, 4094571909, 275423344,
   430227734, 506948616, 659060556, 883997877, 958139571, 1322822218,
   1537002063, 1747873779, 1955562222, 2024104815, 2227730452, 2361852424,
   2428436474, 2756734187, 3204031479, 3329325298]

/-- The SHA-256 initial hash value. -/
def sha256H0 : Hash8 :=
  ⟨1779033703, 3144134277, 1013904242, 2773480762, 1359893119, 2600822924,
   528734635, 1541459225⟩

/-- One SHA-256 compression round. -/
def sha256Round (s : Hash8) (k w : Nat) : Hash8 :=
  let t1 := (s.h + bigS1 s.e + chF s.e s.f s.g + k + w) % M32
  let t2 := (bigS0 s.a + majF s.a s.b s.c) % M32
  ⟨(t1 + t2) % M32, s.a, s.b, s.c, (s.d + t1) % M32, s.e, s.f, s.g⟩

/-- Message-schedule extension: `acc` holds the words produced so far, most
recent first; each step prepends the next scheduled word. -/
def sha256Extend : Nat → List Nat → List Nat
  | 0, acc => acc.reverse
  | n + 1, acc =>
    sha256Extend n
      (((smallS1 (acc.getD 1 0) + acc.getD 6 0 + smallS0 (acc.getD 14 0) +
          acc.getD 15 0) % M32) :: acc)

/-- One SHA-256 block compression. -/
def sha256Block (s : Hash8) (block : List Nat) : Hash8 :=
  let w := sha256Extend 48 block.reverse
  let t := (sha256K.zip w).foldl (fun st kw => sha256Round st kw.1 kw.2) s
  ⟨(s.a + t.a) % M32, (s.b + t.b) % M32, (s.c + t.c) % M32, (s.d + t.d) % M32,
   (s.e + t.e) % M32, (s.f + t.f) % M32, (s.g + t.g) % M32, (s.h + t.h) % M32⟩

/-- Big-endian 32-bit words from a byte list. -/
def bytesToWords : List Nat → List Nat
  | b0 :: b1 :: b2 :: b3 :: rest =>
    (b0 * 16777216 + b1 * 65536 + b2 * 256 + b3) :: bytesToWords rest
  | _ => []

/-- The eight big-endian bytes of a 64-bit length. -/
def be64 (n : Nat) : List Nat :=
  [n / 72057594037927936 % 256, n / 281474976710656 % 256,
   n / 1099511627776 % 256, n / 4294967296 % 256,
   n / 16777216 % 256, n / 65536 % 256, n / 256 % 256, n % 256]

/-- SHA-256 message padding: a 0x80 byte, zeros to 56 mod 64, and the
message bit length as 8 big-endian bytes. -/
def sha256Pad (msg : List Nat) : List Nat :=
  msg ++ [128] ++ List.replicate ((119 - msg.length % 64) % 64) 0 ++
    be64 (msg.length * 8)

/-- Split a word list into 16-word blocks (`cur` collects the pending block
in reverse). -/
def wordBlocks : List Nat → List Nat → List (List Nat)
  | cur, [] => if cur == [] then [] else [cur.reverse]
  | cur, w :: ws =>
    if cur.length == 15 then (w :: cur).reverse :: wordBlocks [] ws
    else wordBlocks (w :: cur) ws

/-- SHA-256 of a byte list, digest as eight 32-bit words. -/
def sha256Words (msg : List Nat) : Hash8 :=
  (wordBlocks [] (bytesToWords (sha256Pad msg))).foldl sha256Block sha256H0

/-- SHA-256 digest folded into one 256-bit natural.  The Python code stores
`hashlib.sha256(...).hexdigest()`; the hex string is the base-16 rendering of
this number over 64 digits, so equality of digests and of hex strings agree. -/
def sha256Nat (msg : List Nat) : Nat :=
  let d := sha256Words msg
  ((((((d.a * M32 + d.b) * M32 + d.c) * M32 + d.d) * M32 + d.e) * M32 + d.f) *
      M32 + d.g) * M32 + d.h

/-- Byte encoding of a string: code points, which for the ASCII key strings
the importer builds equals Python's `str.encode()` (UTF-8). -/
def strBytes (s : String) : List Nat :=
  s.data.map Char.toNat

/-- The `key_string = f"{project_id}:{section_name}:{standard_name}:{requirement}"`
preimage of `Indicator.generate_indicator_key_static`. -/
def keyString (project_id : Nat) (section_name standard_name requirement : String) :
    String :=
  toString project_id ++ ":" ++ section_name ++ ":" ++ standard_name ++ ":" ++
    requirement

/-- `Indicator.generate_indicator_key_static`: SHA-256 of the colon-joined
coordinates (digest as a natural; see `sha256Nat`). -/
def generate_indicator_key_static (project_id : Nat)
    (section_name standard_name requirement : String) : Nat :=
  sha256Nat (strBytes (keyString project_id section_name standard_name requirement))

/-- A CSV row's identity-bearing columns (`Section`, `Standard`, `Indicator`);
the remaining columns are carried along unmodelled since they never influence
lookup keys or import counts. -/
structure Row where
  sectionName : String
  standardName : String
  indicatorText : String
deriving DecidableEq, Repr

/-- The relational store the importer reads and writes: indicators as
`(indicator_key, section id, standard id, row data)`, sections as
`(id, name)`, standards as `(id, section id, name)`, and the next
auto-increment ids. -/
structure Store where
  indicators : List (Nat × Nat × Nat × Row)
  sections : List (Nat × String)
  standards : List (Nat × Nat × String)
  nextSectionId : Nat
  nextStandardId : Nat
deriving DecidableEq, Repr

/-- A store with no rows. -/
def emptyStore : Store :=
  ⟨[], [], [], 1, 1⟩

/-- The counters of a `CSVImportResult`. -/
structure ImportResult where
  sections_created : Nat
  standards_created : Nat
  indicators_created : Nat
  indicators_updated : Nat
  rows_skipped : Nat
deriving DecidableEq, Repr

/-- A fresh `CSVImportResult`. -/
def emptyResult : ImportResult :=
  ⟨0, 0, 0, 0, 0⟩

/-- `CSVImportService._get_or_create_section`: case-insensitive lookup by
name (`name__iexact`), creating the section when absent.  The per-batch cache
only short-circuits lookups that would find the same store row, so it is
behaviourally transparent and not modelled separately. -/
def get_or_create_section (st : Store) (res : ImportResult) (name : String) :
    Nat × Store × ImportResult :=
  match st.sections.find? (fun s => pyLower s.2 == pyLower name) with
  | some s => (s.1, st, res)
  | none =>
    (st.nextSectionId,
     { st with
         sections := st.sections ++ [(st.nextSectionId, name)]
         nextSectionId := st.nextSectionId + 1 },
     { res with sections_created := res.sections_created + 1 })

/-- `CSVImportService._get_or_create_standard`: case-insensitive lookup by
(section, name), creating the standard when absent. -/
def get_or_create_standard (st : Store) (res : ImportResult) (secId : Nat)
    (name : String) : Nat × Store × ImportResult :=
  match st.standards.find? (fun s => s.2.1 == secId && pyLower s.2.2 == pyLower name) with
  | some s => (s.1, st, res)
  | none =>
    (st.nextStandardId,
     { st with
         standards := st.standards ++ [(st.nextStandardId, secId, name)]
         nextStandardId := st.nextStandardId + 1 },
     { res with standards_created := res.standards_created + 1 })

/-- The `ValueError` guard of `_process_row`: any of the three required
fields empty after stripping. -/
def skipRow (row : Row) : Bool :=
  pyStrip row.sectionName == "" || pyStrip row.standardName == "" ||
    pyStrip row.indicatorText == ""

/-- The identity key `_process_row` computes for a row. -/
def rowKey (pid : Nat) (row : Row) : Nat :=
  generate_indicator_key_static pid (pyStrip row.sectionName)
    (pyStrip row.standardName) (pyStrip row.indicatorText)

/-- `CSVImportService._process_row`: skip rows with a missing required
field (counted by the caller's exception handler), resolve section and
standard case-insensitively, then upsert the indicator by its identity key —
update the existing record when the key is found, insert otherwise. -/
def process_row (pid : Nat) (s : Store × ImportResult) (row : Row) :
    Store × ImportResult :=
  if skipRow row then (s.1, { s.2 with rows_skipped := s.2.rows_skipped + 1 })
  else
    let r1 := get_or_create_section s.1 s.2 (pyStrip row.sectionName)
    let r2 := get_or_create_standard r1.2.1 r1.2.2 r1.1 (pyStrip row.standardName)
    let key := rowKey pid row
    match r2.2.1.indicators.find? (fun p => p.1 == key) with
    | some _ =>
      ({ r2.2.1 with
           indicators := r2.2.1.indicators.map
             (fun p => if p.1 == key then (key, r1.1, r2.1, row) else p) },
       { r2.2.2 with indicators_updated := r2.2.2.indicators_updated + 1 })
    | none =>
      ({ r2.2.1 with indicators := r2.2.1.indicators ++ [(key, r1.1, r2.1, row)] },
       { r2.2.2 with indicators_created := r2.2.2.indicators_created + 1 })

/-- `CSVImportService.import_csv`'s row loop over an already-parsed CSV with
valid headers: fold `_process_row` over the rows with fresh counters. -/
def import_rows (pid : Nat) (store : Store) (rows : List Row) :
    Store × ImportResult :=
  rows.foldl (process_row pid) (store, emptyResult)

/-- The keys currently present in a store's indicator table. -/
def indicatorKeys (st : Store) : List Nat :=
  st.indicators.map (fun p => p.1)

/-- Every month length lies between 1 and 31. -/
theorem daysInMonth_bounds (y m : Nat) :
    1 ≤ daysInMonth y m ∧ daysInMonth y m ≤ 31 := by
  unfold daysInMonth
  split
  · split <;> omega
  · split <;> omega

/-- Introduction rule for `ValidYmd` on a literal date. -/
theorem validYmd_mk (y m dd : Nat) (h1 : 1 ≤ m) (h2 : m ≤ 12) (h3 : 1 ≤ dd)
    (h4 : dd ≤ 31) : ValidYmd ⟨y, m, dd⟩ :=
  ⟨h1, h2, h3, h4⟩

/-- `addOneDay` preserves the date invariant. -/
theorem validYmd_addOneDay (d : Ymd) (h : ValidYmd d) : ValidYmd (addOneDay d) := by
  obtain ⟨h1, h2, h3, h4⟩ := h
  have hb := daysInMonth_bounds d.year d.month
  unfold addOneDay
  split
  · exact validYmd_mk _ _ _ h1 h2 (by omega) (by omega)
  · split
    · exact validYmd_mk _ _ _ (by omega) (by omega) (by omega) (by omega)
    · exact validYmd_mk _ _ _ (by omega) (by omega) (by omega) (by omega)

/-- `addDays` preserves the date invariant. -/
theorem validYmd_addDays (n : Nat) (d : Ymd) (h : ValidYmd d) :
    ValidYmd (addDays n d) := by
  induction n generalizing d with
  | zero => exact h
  | succ k ih => exact ih (addOneDay d) (validYmd_addOneDay d h)

/-- `subOneDay` preserves the date invariant. -/
theorem validYmd_subOneDay (d : Ymd) (h : ValidYmd d) : ValidYmd (subOneDay d) := by
  obtain ⟨h1, h2, h3, h4⟩ := h
  have hb := daysInMonth_bounds d.year (d.month - 1)
  unfold subOneDay
  split
  · exact validYmd_mk _ _ _ h1 h2 (by omega) (by omega)
  · split
    · exact validYmd_mk _ _ _ (by omega) (by omega) (by omega) (by omega)
    · exact validYmd_mk _ _ _ (by omega) (by omega) (by omega) (by omega)

/-- `subDays` preserves the date invariant. -/
theorem validYmd_subDays (n : Nat) (d : Ymd) (h : ValidYmd d) :
    ValidYmd (subDays n d) := by
  induction n generalizing d with
  | zero => exact h
  | succ k ih => exact ih (subOneDay d) (validYmd_subOneDay d h)

/-- `addMonthsClamp` preserves the date invariant. -/
theorem validYmd_addMonthsClamp (n : Nat) (d : Ymd) (h : ValidYmd d) :
    ValidYmd (addMonthsClamp n d) := by
  obtain ⟨h1, h2, h3, h4⟩ := h
  have hm : (d.year * 12 + (d.month - 1) + n) % 12 < 12 := Nat.mod_lt _ (by omega)
  have hb := daysInMonth_bounds ((d.year * 12 + (d.month - 1) + n) / 12)
    ((d.year * 12 + (d.month - 1) + n) % 12 + 1)
  have hmin1 : min d.day (daysInMonth ((d.year * 12 + (d.month - 1) + n) / 12)
      ((d.year * 12 + (d.month - 1) + n) % 12 + 1)) ≤ d.day := Nat.min_le_left _ _
  have hmin2 : 1 ≤ min d.day (daysInMonth ((d.year * 12 + (d.month - 1) + n) / 12)
      ((d.year * 12 + (d.month - 1) + n) % 12 + 1)) := le_min h3 hb.1
  exact validYmd_mk _ _ _ (by omega) (by omega) (by omega) (by omega)

/-- `addYearsClamp` preserves the date invariant. -/
theorem validYmd_addYearsClamp (n : Nat) (d : Ymd) (h : ValidYmd d) :
    ValidYmd (addYearsClamp n d) := by
  obtain ⟨h1, h2, h3, h4⟩ := h
  have hb := daysInMonth_bounds (d.year + n) d.month
  have hmin1 : min d.day (daysInMonth (d.year + n) d.month) ≤ d.day := Nat.min_le_left _ _
  have hmin2 : 1 ≤ min d.day (daysInMonth (d.year + n) d.month) := le_min h3 hb.1
  exact validYmd_mk _ _ _ h1 h2 (by omega) (by omega)

/-- The start of any frequency's period is again a valid date. -/
theorem validYmd_period_start (freq : String) (d : Ymd) (h : ValidYmd d) :
    ValidYmd (get_period_dates freq d).1 := by
  obtain ⟨h1, h2, h3, h4⟩ := h
  have hv : ValidYmd d := ⟨h1, h2, h3, h4⟩
  have hq : (d.month - 1) / 3 ≤ 3 := by omega
  simp only [get_period_dates]
  split
  · exact hv
  split
  · exact validYmd_subDays _ d hv
  split
  · exact validYmd_subDays _ d hv
  split
  · exact validYmd_mk _ _ _ h1 h2 (by omega) (by omega)
  split
  · exact validYmd_mk _ _ _ (by omega) (by omega) (by omega) (by omega)
  split
  · split
    · exact validYmd_mk _ _ _ (by omega) (by omega) (by omega) (by omega)
    · exact validYmd_mk _ _ _ (by omega) (by omega) (by omega) (by omega)
  split
  · exact validYmd_mk _ _ _ (by omega) (by omega) (by omega) (by omega)
  · exact hv

/-- Whatever `calculate_next_due_date` returns is again a valid date. -/
theorem validYmd_next_due (freq : String) (d x : Ymd) (h : ValidYmd d)
    (hx : calculate_next_due_date freq d = some x) : ValidYmd x := by
  simp only [calculate_next_due_date] at hx
  split at hx
  · exact absurd hx (by simp)
  split at hx
  · exact (Option.some_inj.mp hx) ▸ validYmd_addDays 1 d h
  split at hx
  · exact (Option.some_inj.mp hx) ▸ validYmd_addDays 7 d h
  split at hx
  · exact (Option.some_inj.mp hx) ▸ validYmd_addDays 14 d h
  split at hx
  · exact (Option.some_inj.mp hx) ▸ validYmd_addMonthsClamp 1 d h
  split at hx
  · exact (Option.some_inj.mp hx) ▸ validYmd_addMonthsClamp 3 d h
  split at hx
  · exact (Option.some_inj.mp hx) ▸ validYmd_addMonthsClamp 6 d h
  split at hx
  · exact (Option.some_inj.mp hx) ▸ validYmd_addYearsClamp 1 d h
  · exact absurd hx (by simp)

/-- On valid dates the measure `mYmd` is strictly monotone along `ymdLt`. -/
theorem mYmd_lt_mono (a b : Ymd) (ha : ValidYmd a) (hb : ValidYmd b)
    (hab : ymdLt a b = true) : mYmd a < mYmd b := by
  obtain ⟨ha1, ha2, ha3, ha4⟩ := ha
  obtain ⟨hb1, hb2, hb3, hb4⟩ := hb
  unfold ymdLt at hab
  rw [decide_eq_true_eq] at hab
  unfold mYmd
  rcases hab with h | ⟨hy, h | ⟨hm, hd⟩⟩ <;> omega

/-- On valid dates the measure `mYmd` is monotone along `ymdLe`. -/
theorem mYmd_le_mono (a b : Ymd) (ha : ValidYmd a) (hb : ValidYmd b)
    (hab : ymdLe a b = true) : mYmd a ≤ mYmd b := by
  obtain ⟨ha1, ha2, ha3, ha4⟩ := ha
  obtain ⟨hb1, hb2, hb3, hb4⟩ := hb
  unfold ymdLe at hab
  rw [decide_eq_true_eq] at hab
  unfold mYmd
  rcases hab with h | ⟨hy, h | ⟨hm, hd⟩⟩ <;> omega

/-- Date comparison is total: when `b ≤ a` fails, `a < b` holds. -/
theorem ymdLt_of_not_le (a b : Ymd) (h : ymdLe b a = false) : ymdLt a b = true := by
  unfold ymdLe at h
  unfold ymdLt
  rw [decide_eq_false_iff_not] at h
  rw [decide_eq_true_eq]
  by_cases hy : a.year = b.year
  · by_cases hm : a.month = b.month
    · exact Or.inr ⟨hy, Or.inr ⟨hm, by omega⟩⟩
    · exact Or.inr ⟨hy, Or.inl (by omega)⟩
  · exact Or.inl (by omega)

/-- The iteration budget `mYmd endD + 2` always suffices for the
expected-periods loop: on valid dates the loop either breaks or strictly
advances the measure, so the fueled run never returns `none`. -/
theorem expLoop_isSome_of_budget (freq : String) (endD : Ymd) (hE : ValidYmd endD) :
    ∀ (fuel : Nat) (current : Ymd) (acc : List (Ymd × Ymd)), ValidYmd current →
      mYmd endD + 2 ≤ fuel + mYmd current → 1 ≤ fuel →
      (expLoop freq endD fuel current acc).isSome := by
  intro fuel
  induction fuel with
  | zero => intro current acc _ _ hf; exact absurd hf (by omega)
  | succ f ih =>
    intro current acc hC hInv _
    simp only [expLoop]
    split
    · rename_i hg
      split
      · simp
      · rename_i next hnext
        split
        · simp
        · rename_i hle
          have hfalse : ymdLe next current = false := by
            simp only [Bool.not_eq_true] at hle
            exact hle
          have hps := validYmd_period_start freq current hC
          have hN := validYmd_next_due freq _ next hps hnext
          have hlt := mYmd_lt_mono current next hC hN (ymdLt_of_not_le current next hfalse)
          have hle2 := mYmd_le_mono current endD hC hE hg
          exact ih next _ hN (by omega) (by omega)
    · simp

/-- The loop only ever appends: the result is at least as long as the
accumulator it started from. -/
theorem expLoop_acc_length (freq : String) (endD : Ymd) :
    ∀ (fuel : Nat) (current : Ymd) (acc : List (Ymd × Ymd)) (l : List (Ymd × Ymd)),
      expLoop freq endD fuel current acc = some l → acc.length ≤ l.length := by
  intro fuel
  induction fuel with
  | zero => intro current acc l h; exact absurd h (by simp [expLoop])
  | succ f ih =>
    intro current acc l h
    simp only [expLoop] at h
    split at h
    · split at h
      · rw [Option.some_inj] at h
        subst h
        split <;> simp
      · split at h
        · rw [Option.some_inj] at h
          subst h
          split <;> simp
        · refine le_trans ?_ (ih _ _ _ h)
          split <;> simp
    · rw [Option.some_inj] at h
      subst h
      exact le_rfl

/-- Once the loop runs with the guard satisfied (or a non-empty
accumulator), its result is non-empty: the first iteration appends a
period before any break can happen. -/
theorem expLoop_ne_nil (freq : String) (endD : Ymd) :
    ∀ (fuel : Nat) (current : Ymd) (acc : List (Ymd × Ymd)) (l : List (Ymd × Ymd)),
      expLoop freq endD fuel current acc = some l →
      (acc ≠ [] ∨ ymdLe current endD = true) → l ≠ [] := by
  intro fuel
  induction fuel with
  | zero => intro current acc l h _; exact absurd h (by simp [expLoop])
  | succ f ih =>
    intro current acc l h hd
    simp only [expLoop] at h
    split at h
    · rename_i hg
      have hacc : (if acc.getLast? = some (get_period_dates freq current) then acc
          else acc ++ [get_period_dates freq current]) ≠ [] := by
        split
        · rename_i hlast
          intro hnil
          rw [hnil] at hlast
          simp at hlast
        · simp
      split at h
      · rw [Option.some_inj] at h
        subst h
        exact hacc
      · split at h
        · rw [Option.some_inj] at h
          subst h
          exact hacc
        · exact ih _ _ _ h (Or.inl hacc)
    · rename_i hg
      rw [Option.some_inj] at h
      subst h
      rcases hd with hne | htrue
      · exact hne
      · exact absurd htrue hg

/-- An obligation created on or before the as-of date has at least one
expected period. -/
theorem expected_periods_nonempty (freq : String) (created endD : Ymd)
    (h1 : ValidYmd created) (h2 : ValidYmd endD)
    (hle : ymdLe created endD = true) :
    _get_expected_periods freq created endD ≠ [] := by
  have hs := expLoop_isSome_of_budget freq endD h2 (mYmd endD + 2) created []
    h1 (by omega) (by omega)
  obtain ⟨l, hl⟩ := Option.isSome_iff_exists.mp hs
  have hne := expLoop_ne_nil freq endD _ created [] l hl (Or.inr hle)
  unfold _get_expected_periods
  rw [hl]
  simpa using hne

/-- `addMonthsClamp` written explicitly in terms of quotient and remainder. -/
theorem addMonthsClamp_spec (n y m d : Nat) :
    addMonthsClamp n ⟨y, m, d⟩ =
      ⟨(y * 12 + (m - 1) + n) / 12, (y * 12 + (m - 1) + n) % 12 + 1,
        min d (daysInMonth ((y * 12 + (m - 1) + n) / 12)
          ((y * 12 + (m - 1) + n) % 12 + 1))⟩ :=
  rfl

/-- Adding months without crossing a year boundary. -/
theorem addMonthsClamp_same_year (n y m d : Nat) (h1 : 1 ≤ m) (h2 : m + n ≤ 12) :
    addMonthsClamp n ⟨y, m, d⟩ = ⟨y, m + n, min d (daysInMonth y (m + n))⟩ := by
  rw [addMonthsClamp_spec]
  have e1 : (y * 12 + (m - 1) + n) / 12 = y := by omega
  have e2 : (y * 12 + (m - 1) + n) % 12 + 1 = m + n := by omega
  rw [e1, e2]

/-- Adding months across one year boundary. -/
theorem addMonthsClamp_next_year (n y m d : Nat) (h1 : 1 ≤ m) (h2 : 13 ≤ m + n)
    (h3 : m + n ≤ 24) :
    addMonthsClamp n ⟨y, m, d⟩ =
      ⟨y + 1, m + n - 12, min d (daysInMonth (y + 1) (m + n - 12))⟩ := by
  rw [addMonthsClamp_spec]
  have e1 : (y * 12 + (m - 1) + n) / 12 = y + 1 := by omega
  have e2 : (y * 12 + (m - 1) + n) % 12 + 1 = m + n - 12 := by omega
  rw [e1, e2]

/-- C6: `nextDueDate` under Monthly/Quarterly/SemiAnnually/Annual adds exactly
1/3/6/12 calendar months: month and year boundaries roll over and the
day-of-month is clamped to the last valid day of the target month; in
particular `nextDueDate(Monthly, 2024-01-31) = 2024-02-29`. -/
theorem next_due_date_calendar_arithmetic (y m d : Nat) (h1 : 1 ≤ m) (h2 : m ≤ 12) :
    (calculate_next_due_date "Monthly" ⟨y, m, d⟩ =
      some (if m = 12 then ⟨y + 1, 1, min d (daysInMonth (y + 1) 1)⟩
            else ⟨y, m + 1, min d (daysInMonth y (m + 1))⟩)) ∧
    (calculate_next_due_date "Quarterly" ⟨y, m, d⟩ =
      some (if m + 3 ≤ 12 then ⟨y, m + 3, min d (daysInMonth y (m + 3))⟩
            else ⟨y + 1, m + 3 - 12, min d (daysInMonth (y + 1) (m + 3 - 12))⟩)) ∧
    (calculate_next_due_date "Semi-Annually" ⟨y, m, d⟩ =
      some (if m + 6 ≤ 12 then ⟨y, m + 6, min d (daysInMonth y (m + 6))⟩
            else ⟨y + 1, m + 6 - 12, min d (daysInMonth (y + 1) (m + 6 - 12))⟩)) ∧
    (calculate_next_due_date "Annual" ⟨y, m, d⟩ = some (addMonthsClamp 12 ⟨y, m, d⟩)) ∧
    calculate_next_due_date "Monthly" ⟨2024, 1, 31⟩ = some ⟨2024, 2, 29⟩ := by
  have hmon : calculate_next_due_date "Monthly" ⟨y, m, d⟩ =
      some (addMonthsClamp 1 ⟨y, m, d⟩) := rfl
  have hqua : calculate_next_due_date "Quarterly" ⟨y, m, d⟩ =
      some (addMonthsClamp 3 ⟨y, m, d⟩) := rfl
  have hsem : calculate_next_due_date "Semi-Annually" ⟨y, m, d⟩ =
      some (addMonthsClamp 6 ⟨y, m, d⟩) := rfl
  have hann : calculate_next_due_date "Annual" ⟨y, m, d⟩ =
      some (addYearsClamp 1 ⟨y, m, d⟩) := rfl
  refine ⟨?_, ?_, ?_, ?_, by decide⟩
  · rw [hmon]
    by_cases h12 : m = 12
    · rw [if_pos h12, addMonthsClamp_next_year 1 y m d h1 (by omega) (by omega)]
      subst h12
      rfl
    · rw [if_neg h12, addMonthsClamp_same_year 1 y m d h1 (by omega)]
  · rw [hqua]
    by_cases h9 : m + 3 ≤ 12
    · rw [if_pos h9, addMonthsClamp_same_year 3 y m d h1 h9]
    · rw [if_neg h9, addMonthsClamp_next_year 3 y m d h1 (by omega) (by omega)]
  · rw [hsem]
    by_cases h6 : m + 6 ≤ 12
    · rw [if_pos h6, addMonthsClamp_same_year 6 y m d h1 h6]
    · rw [if_neg h6, addMonthsClamp_next_year 6 y m d h1 (by omega) (by omega)]
  · rw [hann]
    rw [addMonthsClamp_next_year 12 y m d h1 (by omega) (by omega)]
    unfold addYearsClamp
    have e : m + 12 - 12 = m := by omega
    rw [e]

/-- Witness for `next_due_date_calendar_arithmetic` at 2024-01-31. -/
theorem next_due_date_calendar_arithmetic_witness :
    calculate_next_due_date "Monthly" ⟨2024, 1, 31⟩ = some ⟨2024, 2, 29⟩ :=
  (next_due_date_calendar_arithmetic 2024 1 31 (by decide) (by decide)).2.2.2.2

/-- C7: a Monthly obligation created 2024-01-15 evaluated as of 2024-04-01
expects exactly the four calendar months January through April 2024. -/
theorem monthly_expected_periods_example :
    _get_expected_periods "Monthly" ⟨2024, 1, 15⟩ ⟨2024, 4, 1⟩ =
      [(⟨2024, 1, 1⟩, ⟨2024, 1, 31⟩), (⟨2024, 2, 1⟩, ⟨2024, 2, 29⟩),
       (⟨2024, 3, 1⟩, ⟨2024, 3, 31⟩), (⟨2024, 4, 1⟩, ⟨2024, 4, 30⟩)] := by
  decide

/-- C5: for every frequency string — the unrecognized ones included — and
all (valid) creation and as-of dates, the expected-periods walk halts:
within the explicit iteration budget `mYmd endD + 2` the loop reaches one of
its exits (date past the end, next start undefined, or next start not
advancing), and `_get_expected_periods` returns that final list. -/
theorem expected_periods_walk_terminates (freq : String) (created endD : Ymd)
    (h1 : ValidYmd created) (h2 : ValidYmd endD) :
    ∃ l, expLoop freq endD (mYmd endD + 2) created [] = some l ∧
      _get_expected_periods freq created endD = l := by
  have hs := expLoop_isSome_of_budget freq endD h2 (mYmd endD + 2) created []
    h1 (by omega) (by omega)
  obtain ⟨l, hl⟩ := Option.isSome_iff_exists.mp hs
  refine ⟨l, hl, ?_⟩
  unfold _get_expected_periods
  rw [hl]
  rfl

/-- Witness for `expected_periods_walk_terminates` on an unrecognized
frequency string. -/
theorem expected_periods_walk_terminates_witness :
    ∃ l, expLoop "Sporadic" ⟨2024, 4, 1⟩ (mYmd ⟨2024, 4, 1⟩ + 2) ⟨2024, 1, 15⟩ [] =
        some l ∧
      _get_expected_periods "Sporadic" ⟨2024, 1, 15⟩ ⟨2024, 4, 1⟩ = l :=
  expected_periods_walk_terminates "Sporadic" ⟨2024, 1, 15⟩ ⟨2024, 4, 1⟩
    (by decide) (by decide)

/-- C9: creating an evidence record auto-advances a `NOT_STARTED` item to
`IN_PROGRESS` and leaves an item in any other status untouched. -/
theorem evidence_autoadvance_rule :
    evidenceCreateItemStatus .notStarted = .inProgress ∧
    ∀ s : WStatus, s ≠ .notStarted → evidenceCreateItemStatus s = s := by
  refine ⟨rfl, ?_⟩
  intro s hs
  cases s
  · exact absurd rfl hs
  all_goals rfl

/-- C2 counterexample: a coordinator (not QA admin) may move a `VERIFIED`
item to `NOT_STARTED`, and may set `VERIFIED` from `REJECTED` — both pairs
the claim says are rejected (the `valid_transitions` dictionary simply has
no key for `VERIFIED`/`REJECTED`/`COMPLETED`, so no check fires, and the
pending-review guard only runs for QA admins). -/
theorem workflow_claim_counterexample :
    itemStatusUpdate false true WStatus.verified WStatus.notStarted =
      UpdateResult.accepted WStatus.notStarted ∧
    itemStatusUpdate false true WStatus.rejected WStatus.verified =
      UpdateResult.accepted WStatus.verified := by
  decide

/-- C2 (amended): for a coordinator who is not a QA admin, when the current
status is `NOT_STARTED`, `IN_PROGRESS` or `PENDING_REVIEW` exactly the four
listed transitions are accepted and everything else is rejected as an
invalid transition; from `COMPLETED`, `VERIFIED` or `REJECTED` any target is
accepted unchecked.  A QA admin's `VERIFIED`/`REJECTED` request is accepted
exactly when the item is `PENDING_REVIEW` (whether or not they are also a
coordinator), and `mark_in_progress` moves any status to `IN_PROGRESS` for
either role. -/
theorem workflow_transition_rules (current tgt : WStatus) :
    ((current = .notStarted ∨ current = .inProgress ∨ current = .pendingReview) →
      ((itemStatusUpdate false true current tgt = .accepted tgt ↔
        ((current = .notStarted ∧ tgt = .inProgress) ∨
         (current = .inProgress ∧ (tgt = .pendingReview ∨ tgt = .notStarted)) ∨
         (current = .pendingReview ∧ tgt = .inProgress))) ∧
       (itemStatusUpdate false true current tgt ≠ .accepted tgt →
        itemStatusUpdate false true current tgt = .invalidTransition))) ∧
    ((current = .completed ∨ current = .verified ∨ current = .rejected) →
      itemStatusUpdate false true current tgt = .accepted tgt) ∧
    ((tgt = .verified ∨ tgt = .rejected) →
      ((itemStatusUpdate true false current tgt = .accepted tgt ↔
          current = .pendingReview) ∧
       (itemStatusUpdate true true current tgt = .accepted tgt ↔
          current = .pendingReview))) ∧
    (mark_in_progress true false current = .accepted .inProgress ∧
     mark_in_progress false true current = .accepted .inProgress) := by
  cases current <;> cases tgt <;> decide

/-- C1 counterexample: with an empty expected-period set (creation date
after the as-of date) the missing set is empty too, and the code reports
`compliant`, not `not_compliant`. -/
theorem compliance_zero_expected_counterexample :
    (calculate_compliance_status
        ⟨"recurring", "Monthly", ⟨2024, 5, 1⟩, "pending", [], []⟩ ⟨2024, 4, 1⟩).status =
      "compliant" ∧
    _get_expected_periods "Monthly" ⟨2024, 5, 1⟩ ⟨2024, 4, 1⟩ = [] := by
  decide

/-- The status if-chain of `calculate_compliance_status`, characterized. -/
theorem derive_status_iff (missing expected : List (Ymd × Ymd))
    (hle : missing.length ≤ expected.length) :
    (((if missing.length = 0 then "compliant"
       else if missing.length < expected.length then "in_process"
       else "not_compliant") = "compliant") ↔ missing = []) ∧
    (((if missing.length = 0 then "compliant"
       else if missing.length < expected.length then "in_process"
       else "not_compliant") = "in_process") ↔
      missing ≠ [] ∧ missing.length < expected.length) ∧
    (((if missing.length = 0 then "compliant"
       else if missing.length < expected.length then "in_process"
       else "not_compliant") = "not_compliant") ↔
      missing ≠ [] ∧ missing.length = expected.length) := by
  by_cases hz : missing.length = 0
  · have hnil : missing = [] := List.length_eq_zero.mp hz
    rw [if_pos hz]
    refine ⟨by simp [hnil], ?_, ?_⟩
    · constructor
      · intro h
        exact absurd h (by decide)
      · intro h
        exact absurd hnil h.1
    · constructor
      · intro h
        exact absurd h (by decide)
      · intro h
        exact absurd hnil h.1
  · have hne : missing ≠ [] := by
      intro h
      exact hz (by simp [h])
    rw [if_neg hz]
    by_cases hlt : missing.length < expected.length
    · rw [if_pos hlt]
      refine ⟨?_, ?_, ?_⟩
      · constructor
        · intro h
          exact absurd h (by decide)
        · intro h
          exact absurd h hne
      · simp [hne, hlt]
      · constructor
        · intro h
          exact absurd h (by decide)
        · intro h
          omega
    · rw [if_neg hlt]
      refine ⟨?_, ?_, ?_⟩
      · constructor
        · intro h
          exact absurd h (by decide)
        · intro h
          exact absurd h hne
      · constructor
        · intro h
          exact absurd h (by decide)
        · intro h
          exact absurd h.2 hlt
      · constructor
        · intro _
          exact ⟨hne, by omega⟩
        · intro _
          rfl

/-- C1 (amended): for a recurring obligation the derived status is
`compliant` exactly when the missing set is empty — the zero-expected case
included, which therefore also reports `compliant`; `not_compliant` exactly
when the missing set is non-empty and covers every expected period; and
`in_process` otherwise.  Whenever the creation date is on or before the
as-of date (every state reachable in production) the expected set is
non-empty, so `compliant` then implies a non-empty expected set. -/
theorem compliance_status_rule (ind : Indicator) (today : Ymd)
    (h1 : ind.schedule_type = "recurring") (h2 : ind.normalized_frequency ≠ "") :
    ((calculate_compliance_status ind today).status = "compliant" ↔
      (calculate_compliance_status ind today).missing_periods = []) ∧
    ((calculate_compliance_status ind today).status = "in_process" ↔
      (calculate_compliance_status ind today).missing_periods ≠ [] ∧
      (calculate_compliance_status ind today).missing_periods.length <
        (_get_expected_periods ind.normalized_frequency ind.created today).length) ∧
    ((calculate_compliance_status ind today).status = "not_compliant" ↔
      (calculate_compliance_status ind today).missing_periods ≠ [] ∧
      (calculate_compliance_status ind today).missing_periods.length =
        (_get_expected_periods ind.normalized_frequency ind.created today).length) ∧
    (ValidYmd ind.created → ValidYmd today → ymdLe ind.created today = true →
      _get_expected_periods ind.normalized_frequency ind.created today ≠ []) := by
  have hcond : ¬(ind.schedule_type ≠ "recurring" ∨ ind.normalized_frequency = "") := by
    push_neg
    exact ⟨h1, h2⟩
  have hred : calculate_compliance_status ind today =
      { status :=
          if (_find_missing_periods
                (_get_expected_periods ind.normalized_frequency ind.created today)
                (_get_actual_evidence_periods ind.evidence)).length = 0 then "compliant"
          else if (_find_missing_periods
                (_get_expected_periods ind.normalized_frequency ind.created today)
                (_get_actual_evidence_periods ind.evidence)).length <
              (_get_expected_periods ind.normalized_frequency ind.created today).length
            then "in_process"
          else "not_compliant"
        evidence_count := (_get_actual_evidence_periods ind.evidence).length
        missing_periods :=
          _find_missing_periods
            (_get_expected_periods ind.normalized_frequency ind.created today)
            (_get_actual_evidence_periods ind.evidence)
        expected_count :=
          some (_get_expected_periods ind.normalized_frequency ind.created today).length
        next_due_date := calculate_next_due_date ind.normalized_frequency today } := by
    unfold calculate_compliance_status
    rw [if_neg hcond]
  rw [hred]
  have hlen : (_find_missing_periods
      (_get_expected_periods ind.normalized_frequency ind.created today)
      (_get_actual_evidence_periods ind.evidence)).length ≤
      (_get_expected_periods ind.normalized_frequency ind.created today).length := by
    unfold _find_missing_periods
    exact List.length_filter_le _ _
  have hiff := derive_status_iff _ _ hlen
  exact ⟨hiff.1, hiff.2.1, hiff.2.2,
    fun hv1 hv2 hle =>
      expected_periods_nonempty ind.normalized_frequency ind.created today hv1 hv2 hle⟩

/-- Witness for `compliance_status_rule`: a Monthly obligation created
2024-01-15 with no evidence is `not_compliant` as of 2024-04-01. -/
theorem compliance_status_rule_witness :
    (calculate_compliance_status
        ⟨"recurring", "Monthly", ⟨2024, 1, 15⟩, "pending", [], []⟩ ⟨2024, 4, 1⟩).status =
      "not_compliant" := by
  have h := compliance_status_rule
    ⟨"recurring", "Monthly", ⟨2024, 1, 15⟩, "pending", [], []⟩ ⟨2024, 4, 1⟩
    rfl (by decide)
  exact h.2.2.1.mpr ⟨by decide, by decide⟩

/-- The compliance computation never reads the stored status or the audit
history, so rewriting those fields leaves it unchanged. -/
theorem calculate_status_frame (ind : Indicator) (today : Ymd) (s : String)
    (h : List (String × String)) :
    calculate_compliance_status { ind with status := s, history := h } today =
      calculate_compliance_status ind today :=
  rfl

/-- C8: the deriver stores the computed status, appends a (old, new) audit
entry exactly when the computed status differs from the stored one, and is
idempotent: a second run with unchanged evidence neither changes the status
nor appends another entry. -/
theorem recalculate_audit_idempotent (ind : Indicator) (today : Ymd) :
    ((recalculate_indicator_compliance ind today).status =
      (calculate_compliance_status ind today).status) ∧
    ((recalculate_indicator_compliance ind today).history =
      if ind.status = (calculate_compliance_status ind today).status then ind.history
      else ind.history ++ [(ind.status, (calculate_compliance_status ind today).status)]) ∧
    (recalculate_indicator_compliance (recalculate_indicator_compliance ind today) today =
      recalculate_indicator_compliance ind today) := by
  by_cases heq : ind.status = (calculate_compliance_status ind today).status
  · have hone : recalculate_indicator_compliance ind today = ind := by
      unfold recalculate_indicator_compliance
      rw [if_neg (not_not_intro heq)]
    rw [hone, if_pos heq]
    exact ⟨heq, rfl, hone⟩
  · have hone : recalculate_indicator_compliance ind today =
        { ind with
            status := (calculate_compliance_status ind today).status
            history := ind.history ++
              [(ind.status, (calculate_compliance_status ind today).status)] } := by
      unfold recalculate_indicator_compliance
      rw [if_pos heq]
    rw [hone, if_neg heq]
    refine ⟨rfl, rfl, ?_⟩
    unfold recalculate_indicator_compliance
    rw [calculate_status_frame]
    rw [if_neg (not_not_intro rfl)]

/-- Membership in the actual-periods list: exactly the evidence rows with
both period bounds present survive the query and the comprehension. -/
theorem mem_actual_iff (evs : List Evid) (a b : Ymd) :
    (a, b) ∈ _get_actual_evidence_periods evs ↔
      ∃ e ∈ evs, e.period_start = some a ∧ e.period_end = some b := by
  unfold _get_actual_evidence_periods
  simp only [List.mem_filterMap, List.mem_dedup, List.mem_map, List.mem_filter]
  constructor
  · rintro ⟨⟨rs, re⟩, ⟨e, ⟨he, hfil⟩, hpair⟩, hmatch⟩
    cases rs with
    | none => simp at hmatch
    | some ra =>
      cases re with
      | none => simp at hmatch
      | some rb =>
        simp only [Option.some_inj] at hmatch
        have h1 : ra = a := (Prod.mk.injEq _ _ _ _).mp hmatch |>.1
        have h2 : rb = b := (Prod.mk.injEq _ _ _ _).mp hmatch |>.2
        have hp := (Prod.mk.injEq _ _ _ _).mp hpair
        exact ⟨e, he, by rw [hp.1, h1], by rw [hp.2, h2]⟩
  · rintro ⟨e, he, h1, h2⟩
    refine ⟨(some a, some b), ⟨e, ⟨he, ?_⟩, ?_⟩, rfl⟩
    · simp [h1]
    · rw [h1, h2]

/-- C4: an expected period is reported missing exactly when no evidence
record with both period bounds present overlaps it under the inclusive test
`not (evidence.end < period.start or evidence.start > period.end)`;
evidence with a null bound never counts toward coverage. -/
theorem missing_periods_overlap_rule (expected : List (Ymd × Ymd)) (evs : List Evid)
    (p : Ymd × Ymd) :
    p ∈ _find_missing_periods expected (_get_actual_evidence_periods evs) ↔
      (p ∈ expected ∧ ∀ e ∈ evs, ∀ a b : Ymd, e.period_start = some a →
        e.period_end = some b → (ymdLt b p.1 = true ∨ ymdLt p.2 a = true)) := by
  unfold _find_missing_periods
  rw [List.mem_filter]
  have hcov : ((!(_get_actual_evidence_periods evs).any
        (fun q => !(ymdLt q.2 p.1 || ymdLt p.2 q.1))) = true) ↔
      (∀ e ∈ evs, ∀ a b : Ymd, e.period_start = some a → e.period_end = some b →
        (ymdLt b p.1 = true ∨ ymdLt p.2 a = true)) := by
    rw [Bool.not_eq_true', List.any_eq_false]
    constructor
    · intro hall e he a b h1 h2
      have hq := hall (a, b) ((mem_actual_iff evs a b).mpr ⟨e, he, h1, h2⟩)
      simp only [Bool.not_eq_true] at hq
      rcases hb : ymdLt b p.1 with _ | _
      · exact Or.inr (by simpa [hb] using hq)
      · exact Or.inl rfl
    · rintro hall ⟨qa, qb⟩ hq
      obtain ⟨e, he, h1, h2⟩ := (mem_actual_iff evs qa qb).mp hq
      have hd := hall e he qa qb h1 h2
      simp only [Bool.not_eq_true]
      rcases hd with hd | hd <;> simp [hd]
  rw [hcov]

/-- Section lookup/creation leaves the indicator table alone. -/
theorem gocSection_indicators (st : Store) (res : ImportResult) (name : String) :
    (get_or_create_section st res name).2.1.indicators = st.indicators := by
  unfold get_or_create_section
  split <;> rfl

/-- Section lookup/creation leaves the indicator counters alone. -/
theorem gocSection_counters (st : Store) (res : ImportResult) (name : String) :
    (get_or_create_section st res name).2.2.indicators_created =
        res.indicators_created ∧
      (get_or_create_section st res name).2.2.indicators_updated =
        res.indicators_updated ∧
      (get_or_create_section st res name).2.2.rows_skipped = res.rows_skipped := by
  unfold get_or_create_section
  split <;> exact ⟨rfl, rfl, rfl⟩

/-- Standard lookup/creation leaves the indicator table alone. -/
theorem gocStandard_indicators (st : Store) (res : ImportResult) (secId : Nat)
    (name : String) :
    (get_or_create_standard st res secId name).2.1.indicators = st.indicators := by
  unfold get_or_create_standard
  split <;> rfl

/-- Standard lookup/creation leaves the indicator counters alone. -/
theorem gocStandard_counters (st : Store) (res : ImportResult) (secId : Nat)
    (name : String) :
    (get_or_create_standard st res secId name).2.2.indicators_created =
        res.indicators_created ∧
      (get_or_create_standard st res secId name).2.2.indicators_updated =
        res.indicators_updated ∧
      (get_or_create_standard st res secId name).2.2.rows_skipped = res.rows_skipped := by
  unfold get_or_create_standard
  split <;> exact ⟨rfl, rfl, rfl⟩

/-- Updating the indicator that carries a key rewrites its payload but keeps
the key column of the table pointwise identical. -/
theorem indicatorKeys_update (st : Store) (key secId stdId : Nat) (row : Row) :
    indicatorKeys { st with indicators := (st.indicators.map
        (fun p => if p.1 == key then (key, secId, stdId, row) else p)) } =
      indicatorKeys st := by
  unfold indicatorKeys
  simp only [List.map_map]
  refine List.map_congr_left ?_
  intro p _
  simp only [Function.comp_apply]
  split
  · rename_i hpk
    exact (beq_iff_eq.mp hpk).symm
  · rfl

/-- A key present in the table makes `find?` succeed. -/
theorem find?_of_mem_keys (st : Store) (k : Nat) (h : k ∈ indicatorKeys st) :
    ∃ q, st.indicators.find? (fun p => p.1 == k) = some q := by
  obtain ⟨p, hp, hpk⟩ := List.mem_map.mp h
  have hs : (st.indicators.find? (fun p => p.1 == k)).isSome :=
    List.find?_isSome.mpr ⟨p, hp, by simp [hpk]⟩
  exact Option.isSome_iff_exists.mp hs

/-- A key absent from the table makes `find?` fail. -/
theorem find?_of_not_mem_keys (st : Store) (k : Nat) (h : k ∉ indicatorKeys st) :
    st.indicators.find? (fun p => p.1 == k) = none := by
  refine List.find?_eq_none.mpr ?_
  intro p hp
  intro hpk
  exact h (List.mem_map.mpr ⟨p, hp, beq_iff_eq.mp hpk⟩)

/-- `_process_row` on a row with a missing required field: the store is
untouched and only the skip counter moves. -/
theorem process_row_skip (pid : Nat) (st : Store) (res : ImportResult) (row : Row)
    (h : skipRow row = true) :
    process_row pid (st, res) row =
      (st, { res with rows_skipped := res.rows_skipped + 1 }) := by
  unfold process_row
  rw [if_pos h]

/-- Rewriting the payload of the row carrying `key` leaves the key column of
an indicator table pointwise identical. -/
theorem keys_map_update (l : List (Nat × Nat × Nat × Row)) (key a b : Nat) (row : Row) :
    (l.map (fun p => if p.1 == key then (key, a, b, row) else p)).map
        (fun p => p.1) =
      l.map (fun p => p.1) := by
  simp only [List.map_map]
  refine List.map_congr_left ?_
  intro p _
  simp only [Function.comp_apply]
  split
  · rename_i hpk
    exact (beq_iff_eq.mp hpk).symm
  · rfl

/-- `_process_row` when the row's key already exists: the indicator is
updated in place, the key column is unchanged and only the updated counter
moves. -/
theorem process_row_update (pid : Nat) (st : Store) (res : ImportResult) (row : Row)
    (hskip : skipRow row = false) (hmem : rowKey pid row ∈ indicatorKeys st) :
    indicatorKeys (process_row pid (st, res) row).1 = indicatorKeys st ∧
    (process_row pid (st, res) row).2.indicators_created = res.indicators_created ∧
    (process_row pid (st, res) row).2.indicators_updated = res.indicators_updated + 1 ∧
    (process_row pid (st, res) row).2.rows_skipped = res.rows_skipped := by
  have hnotskip : ¬(skipRow row = true) := by simp [hskip]
  have hc1 := gocSection_counters st res (pyStrip row.sectionName)
  have hc2 := gocStandard_counters (get_or_create_section st res (pyStrip row.sectionName)).2.1
    (get_or_create_section st res (pyStrip row.sectionName)).2.2
    (get_or_create_section st res (pyStrip row.sectionName)).1 (pyStrip row.standardName)
  unfold process_row
  rw [if_neg hnotskip]
  simp only [gocStandard_indicators, gocSection_indicators]
  obtain ⟨q, hq⟩ := find?_of_mem_keys st (rowKey pid row) hmem
  rw [hq]
  dsimp only
  refine ⟨?_, ?_, ?_, ?_⟩
  · unfold indicatorKeys
    dsimp only
    exact keys_map_update st.indicators (rowKey pid row) _ _ row
  · exact hc2.1.trans hc1.1
  · rw [hc2.2.1, hc1.2.1]
  · exact hc2.2.2.trans hc1.2.2

/-- `_process_row` when the row's key is fresh: a new indicator is appended
and only the created counter moves. -/
theorem process_row_create (pid : Nat) (st : Store) (res : ImportResult) (row : Row)
    (hskip : skipRow row = false) (hmem : rowKey pid row ∉ indicatorKeys st) :
    indicatorKeys (process_row pid (st, res) row).1 =
      indicatorKeys st ++ [rowKey pid row] ∧
    (process_row pid (st, res) row).2.indicators_created = res.indicators_created + 1 ∧
    (process_row pid (st, res) row).2.indicators_updated = res.indicators_updated ∧
    (process_row pid (st, res) row).2.rows_skipped = res.rows_skipped := by
  have hnotskip : ¬(skipRow row = true) := by simp [hskip]
  have hc1 := gocSection_counters st res (pyStrip row.sectionName)
  have hc2 := gocStandard_counters (get_or_create_section st res (pyStrip row.sectionName)).2.1
    (get_or_create_section st res (pyStrip row.sectionName)).2.2
    (get_or_create_section st res (pyStrip row.sectionName)).1 (pyStrip row.standardName)
  unfold process_row
  rw [if_neg hnotskip]
  simp only [gocStandard_indicators, gocSection_indicators]
  rw [find?_of_not_mem_keys st (rowKey pid row) hmem]
  dsimp only
  refine ⟨?_, ?_, ?_, ?_⟩
  · unfold indicatorKeys
    dsimp only
    simp
  · rw [hc2.1, hc1.1]
  · exact hc2.2.1.trans hc1.2.1
  · exact hc2.2.2.trans hc1.2.2

/-- Keys only accumulate across `_process_row`. -/
theorem keys_mono_process_row (pid : Nat) (s : Store × ImportResult) (row : Row)
    (k : Nat) (h : k ∈ indicatorKeys s.1) :
    k ∈ indicatorKeys (process_row pid s row).1 := by
  by_cases hskip : skipRow row = true
  · rw [process_row_skip pid s.1 s.2 row hskip]
    exact h
  · have hs : skipRow row = false := by simpa using hskip
    by_cases hmem : rowKey pid row ∈ indicatorKeys s.1
    · rw [(process_row_update pid s.1 s.2 row hs hmem).1]
      exact h
    · rw [(process_row_create pid s.1 s.2 row hs hmem).1]
      exact List.mem_append_left _ h

/-- A processed row's key is present afterwards. -/
theorem key_mem_after_process_row (pid : Nat) (s : Store × ImportResult) (row : Row)
    (hs : skipRow row = false) :
    rowKey pid row ∈ indicatorKeys (process_row pid s row).1 := by
  by_cases hmem : rowKey pid row ∈ indicatorKeys s.1
  · rw [(process_row_update pid s.1 s.2 row hs hmem).1]
    exact hmem
  · rw [(process_row_create pid s.1 s.2 row hs hmem).1]
    exact List.mem_append_right _ (List.mem_singleton.mpr rfl)

/-- Keys only accumulate across a whole import batch. -/
theorem keys_mono_foldl (pid : Nat) :
    ∀ (rows : List Row) (s : Store × ImportResult) (k : Nat),
      k ∈ indicatorKeys s.1 →
      k ∈ indicatorKeys (rows.foldl (process_row pid) s).1 := by
  intro rows
  induction rows with
  | nil => intro s k h; exact h
  | cons row rest ih =>
    intro s k h
    exact ih (process_row pid s row) k (keys_mono_process_row pid s row k h)

/-- After an import batch every non-skipped row's key is in the store. -/
theorem keys_after_import (pid : Nat) :
    ∀ (rows : List Row) (s : Store × ImportResult) (row : Row), row ∈ rows →
      skipRow row = false →
      rowKey pid row ∈ indicatorKeys (rows.foldl (process_row pid) s).1 := by
  intro rows
  induction rows with
  | nil => intro s row h; exact absurd h (List.not_mem_nil row)
  | cons r rest ih =>
    intro s row hmem hs
    rcases List.mem_cons.mp hmem with hhead | htail
    · subst hhead
      exact keys_mono_foldl pid rest (process_row pid s row) _
        (key_mem_after_process_row pid s row hs)
    · exact ih (process_row pid s r) row htail hs


/-- When every (non-skipped) row's key is already present, an import batch
creates nothing and updates once per non-skipped row. -/
theorem run_counts_all_present (pid : Nat) :
    ∀ (rows : List Row) (s : Store × ImportResult),
      (∀ row ∈ rows, skipRow row = false → rowKey pid row ∈ indicatorKeys s.1) →
      ((rows.foldl (process_row pid) s).2.indicators_created =
        s.2.indicators_created ∧
       (rows.foldl (process_row pid) s).2.indicators_updated =
        s.2.indicators_updated + (rows.filter (fun r => !skipRow r)).length) := by
  intro rows
  induction rows with
  | nil => intro s _; exact ⟨rfl, by simp⟩
  | cons row rest ih =>
    intro s hkeys
    have htail : ∀ row' ∈ rest, skipRow row' = false →
        rowKey pid row' ∈ indicatorKeys (process_row pid s row).1 :=
      fun row' hm hs => keys_mono_process_row pid s row _
        (hkeys row' (List.mem_cons_of_mem _ hm) hs)
    have hrec := ih (process_row pid s row) htail
    simp only [List.foldl_cons]
    by_cases hskip : skipRow row = true
    · have h1 : (process_row pid s row).2.indicators_created =
          s.2.indicators_created := by
        rw [process_row_skip pid s.1 s.2 row hskip]
      have h2 : (process_row pid s row).2.indicators_updated =
          s.2.indicators_updated := by
        rw [process_row_skip pid s.1 s.2 row hskip]
      refine ⟨hrec.1.trans h1, ?_⟩
      rw [hrec.2, h2]
      simp [List.filter_cons, hskip]
    · have hs0 : skipRow row = false := by simpa using hskip
      have hmem := hkeys row (List.mem_cons_self row rest) hs0
      have hupd := process_row_update pid s.1 s.2 row hs0 hmem
      refine ⟨hrec.1.trans hupd.2.1, ?_⟩
      rw [hrec.2, hupd.2.2.1]
      simp only [List.filter_cons, hs0, Bool.not_false, if_pos, List.length_cons]
      omega

/-- When the batch's (non-skipped) keys are pairwise distinct and all fresh,
an import batch creates once per non-skipped row. -/
theorem run_counts_fresh (pid : Nat) :
    ∀ (rows : List Row) (s : Store × ImportResult),
      rows.Pairwise (fun a b => skipRow a = false → skipRow b = false →
        rowKey pid a ≠ rowKey pid b) →
      (∀ row ∈ rows, skipRow row = false → rowKey pid row ∉ indicatorKeys s.1) →
      (rows.foldl (process_row pid) s).2.indicators_created =
        s.2.indicators_created + (rows.filter (fun r => !skipRow r)).length := by
  intro rows
  induction rows with
  | nil => intro s _ _; simp
  | cons row rest ih =>
    intro s hpw hfresh
    obtain ⟨hhead, hrest⟩ := List.pairwise_cons.mp hpw
    simp only [List.foldl_cons]
    by_cases hskip : skipRow row = true
    · have hs' : (process_row pid s row).1 = s.1 := by
        rw [process_row_skip pid s.1 s.2 row hskip]
      have hres : (process_row pid s row).2.indicators_created =
          s.2.indicators_created := by
        rw [process_row_skip pid s.1 s.2 row hskip]
      have hrec := ih (process_row pid s row) hrest
        (fun r hm hsr => by
          rw [hs']
          exact hfresh r (List.mem_cons_of_mem _ hm) hsr)
      rw [hrec, hres]
      simp [List.filter_cons, hskip]
    · have hs0 : skipRow row = false := by simpa using hskip
      have hmem := hfresh row (List.mem_cons_self row rest) hs0
      have hcr := process_row_create pid s.1 s.2 row hs0 hmem
      have htail : ∀ r ∈ rest, skipRow r = false →
          rowKey pid r ∉ indicatorKeys (process_row pid s row).1 := by
        intro r hm hsr
        rw [hcr.1]
        intro hin
        rcases List.mem_append.mp hin with hin | hin
        · exact hfresh r (List.mem_cons_of_mem _ hm) hsr hin
        · exact hhead r hm hs0 hsr (List.mem_singleton.mp hin).symm
      have hrec := ih (process_row pid s row) hrest htail
      rw [hrec, hcr.2.1]
      simp only [List.filter_cons, hs0, Bool.not_false, if_pos, List.length_cons]
      omega

set_option maxRecDepth 8000 in
/-- C3 counterexample: importing a CSV that contains the same row twice into
an empty store creates one record and updates one; re-running the same
batch then updates twice — so the re-run's updated count (2) differs from the
first run's created count (1), refuting the unconditional
`updated_count == previously_created_count`. -/
theorem import_duplicate_row_counterexample :
    (import_rows 1 emptyStore [⟨"S1", "ST1", "REQ1"⟩, ⟨"S1", "ST1", "REQ1"⟩]).2.indicators_created = 1 ∧
    (import_rows 1 emptyStore [⟨"S1", "ST1", "REQ1"⟩, ⟨"S1", "ST1", "REQ1"⟩]).2.indicators_updated = 1 ∧
    (import_rows 1 (import_rows 1 emptyStore
        [⟨"S1", "ST1", "REQ1"⟩, ⟨"S1", "ST1", "REQ1"⟩]).1
        [⟨"S1", "ST1", "REQ1"⟩, ⟨"S1", "ST1", "REQ1"⟩]).2.indicators_created = 0 ∧
    (import_rows 1 (import_rows 1 emptyStore
        [⟨"S1", "ST1", "REQ1"⟩, ⟨"S1", "ST1", "REQ1"⟩]).1
        [⟨"S1", "ST1", "REQ1"⟩, ⟨"S1", "ST1", "REQ1"⟩]).2.indicators_updated = 2 ∧
    (2 : Nat) ≠ 1 := by
  refine ⟨?_, ?_, ?_, ?_, by omega⟩ <;> decide

/-- C3 (amended): the identity key is deterministic, and re-running the
CSV import of an unchanged file against the store it produced creates zero new
records — every non-skipped row resolves by key to an existing record and
updates it, so the re-run updates once per non-skipped row.  When the rows'
keys are pairwise distinct and none pre-exists in the store (in particular a
duplicate-free CSV first imported into a store without these rows), the
re-run's updated count equals the first run's created count. -/
theorem import_rerun_updates (pid : Nat) (store : Store) (rows : List Row) :
    ((import_rows pid (import_rows pid store rows).1 rows).2.indicators_created = 0) ∧
    ((import_rows pid (import_rows pid store rows).1 rows).2.indicators_updated =
      (rows.filter (fun r => !skipRow r)).length) ∧
    (∀ (sec std req : String), generate_indicator_key_static pid sec std req =
      generate_indicator_key_static pid sec std req) ∧
    (rows.Pairwise (fun a b => skipRow a = false → skipRow b = false →
        rowKey pid a ≠ rowKey pid b) →
      (∀ row ∈ rows, skipRow row = false → rowKey pid row ∉ indicatorKeys store) →
      ((import_rows pid store rows).2.indicators_created =
          (rows.filter (fun r => !skipRow r)).length ∧
       (import_rows pid (import_rows pid store rows).1 rows).2.indicators_updated =
          (import_rows pid store rows).2.indicators_created)) := by
  have hpresent : ∀ row ∈ rows, skipRow row = false →
      rowKey pid row ∈ indicatorKeys (import_rows pid store rows).1 := by
    intro row hm hs
    unfold import_rows
    exact keys_after_import pid rows (store, emptyResult) row hm hs
  have hsecond := run_counts_all_present pid rows
    ((import_rows pid store rows).1, emptyResult) hpresent
  have hzero : (import_rows pid (import_rows pid store rows).1 rows).2.indicators_created = 0 := by
    have h1 := hsecond.1
    simp only [import_rows] at h1 ⊢
    simpa [emptyResult] using h1
  have hupd : (import_rows pid (import_rows pid store rows).1 rows).2.indicators_updated =
      (rows.filter (fun r => !skipRow r)).length := by
    have h2 := hsecond.2
    simp only [import_rows] at h2 ⊢
    simpa [emptyResult] using h2
  refine ⟨hzero, hupd, fun _ _ _ => rfl, ?_⟩
  intro hpw hfresh
  have hfirst := run_counts_fresh pid rows (store, emptyResult) hpw hfresh
  have hcreated : (import_rows pid store rows).2.indicators_created =
      (rows.filter (fun r => !skipRow r)).length := by
    simp only [import_rows] at hfirst ⊢
    simpa [emptyResult] using hfirst
  exact ⟨hcreated, hupd.trans hcreated.symm⟩

/-- Strings with the same character data are equal. -/
theorem string_data_inj (a b : String) (h : a.data = b.data) : a = b := by
  cases a
  cases b
  exact congrArg String.mk h

/-- The character data of the key preimage, decomposed at its colons. -/
theorem keyString_data (pid : Nat) (s t r : String) :
    (keyString pid s t r).data =
      (toString pid).data ++ ':' :: (s.data ++ ':' :: (t.data ++ ':' :: r.data)) := by
  unfold keyString
  simp [String.data_append, List.append_assoc]

/-- Two key preimages differing only in the section coordinate (same length)
differ. -/
theorem keyString_section_ne (pid : Nat) (sec sec' std req : String)
    (hlen : sec.data.length = sec'.data.length) (hne : sec ≠ sec') :
    keyString pid sec std req ≠ keyString pid sec' std req := by
  intro h
  have hd := congrArg String.data h
  rw [keyString_data, keyString_data] at hd
  have h1 := List.append_cancel_left hd
  have h2 := (List.cons_injective.eq_iff.mp h1 : _)
  have h3 := (List.append_inj h2 hlen).1
  exact hne (string_data_inj _ _ h3)

/-- Two key preimages differing only in the standard coordinate (same
length) differ. -/
theorem keyString_standard_ne (pid : Nat) (sec std std' req : String)
    (hlen : std.data.length = std'.data.length) (hne : std ≠ std') :
    keyString pid sec std req ≠ keyString pid sec std' req := by
  intro h
  have hd := congrArg String.data h
  rw [keyString_data, keyString_data] at hd
  have h1 := List.append_cancel_left hd
  have h2 := (List.cons_injective.eq_iff.mp h1 : _)
  have h3 := List.append_cancel_left h2
  have h4 := (List.cons_injective.eq_iff.mp h3 : _)
  have h5 := (List.append_inj h4 hlen).1
  exact hne (string_data_inj _ _ h5)

/-- Two key preimages differing only in the requirement coordinate differ. -/
theorem keyString_requirement_ne (pid : Nat) (sec std req req' : String)
    (hne : req ≠ req') :
    keyString pid sec std req ≠ keyString pid sec std req' := by
  intro h
  have hd := congrArg String.data h
  rw [keyString_data, keyString_data] at hd
  have h1 := List.append_cancel_left hd
  have h2 := (List.cons_injective.eq_iff.mp h1 : _)
  have h3 := List.append_cancel_left h2
  have h4 := (List.cons_injective.eq_iff.mp h3 : _)
  have h5 := List.append_cancel_left h4
  have h6 := (List.cons_injective.eq_iff.mp h5 : _)
  exact hne (string_data_inj _ _ h6)

set_option maxRecDepth 8000 in
/-- C10: the identity key is case-sensitive in its text coordinates — a
case variant of the section, standard or requirement yields a different
preimage string (shown universally) and a different SHA-256 key (shown on
the digests of a concrete case-variant pair) — while section lookup is
case-insensitive: re-importing a row whose section name differs from an
existing indicator's only in case creates a second indicator record yet
matches (and does not duplicate) the existing section. -/
theorem import_key_case_sensitivity :
    (∀ (pid : Nat) (sec sec' std req : String),
        sec.data.map Char.toLower = sec'.data.map Char.toLower → sec ≠ sec' →
        keyString pid sec std req ≠ keyString pid sec' std req) ∧
    (∀ (pid : Nat) (sec std std' req : String),
        std.data.map Char.toLower = std'.data.map Char.toLower → std ≠ std' →
        keyString pid sec std req ≠ keyString pid sec std' req) ∧
    (∀ (pid : Nat) (sec std req req' : String), req ≠ req' →
        keyString pid sec std req ≠ keyString pid sec std req') ∧
    generate_indicator_key_static 7 "Leadership" "MS-1" "Maintain minutes" ≠
      generate_indicator_key_static 7 "leadership" "MS-1" "Maintain minutes" ∧
    ((import_rows 7 (import_rows 7 emptyStore
          [⟨"Leadership", "MS-1", "Maintain minutes"⟩]).1
          [⟨"leadership", "MS-1", "Maintain minutes"⟩]).2.indicators_created = 1 ∧
     (import_rows 7 (import_rows 7 emptyStore
          [⟨"Leadership", "MS-1", "Maintain minutes"⟩]).1
          [⟨"leadership", "MS-1", "Maintain minutes"⟩]).2.sections_created = 0 ∧
     (import_rows 7 (import_rows 7 emptyStore
          [⟨"Leadership", "MS-1", "Maintain minutes"⟩]).1
          [⟨"leadership", "MS-1", "Maintain minutes"⟩]).1.sections.length = 1) := by
  refine ⟨?_, ?_, ?_, by decide, by decide, by decide, by decide⟩
  · intro pid sec sec' std req hcase hne
    have hlen : sec.data.length = sec'.data.length := by
      have := congrArg List.length hcase
      simpa using this
    exact keyString_section_ne pid sec sec' std req hlen hne
  · intro pid sec std std' req hcase hne
    have hlen : std.data.length = std'.data.length := by
      have := congrArg List.length hcase
      simpa using this
    exact keyString_standard_ne pid sec std std' req hlen hne
  · intro pid sec std req req' hne
    exact keyString_requirement_ne pid sec std req req' hne
